import Mathlib

/-!
Verification of the chronos-home to-do engine and media-player controls.

The definitions below are a shallow embedding of the Todos page
(`filteredAndSortedTodos`, `checkDueNotifications`, `handleToggleComplete`,
`fetchTodos`, `handleSubmit`, `handleDelete`) and of the media-player
`skipForward` / `skipBackward` handlers.

Modelling conventions:
* Timestamps (`due_date`, `completed_at`, `now`) are integers, milliseconds
  since the epoch; a JS `null` becomes `none`.
* `filterStatus`, `filterPriority` and `sortBy` stay plain strings exactly as
  the source compares them (`===` against string literals).
* The JS comparator may return `NaN` (an undefined priority rank subtracted),
  modelled as `Option Int` with `none` for `NaN`; a comparison `NaN <= 0` is
  false, as in JS.
* `Array.prototype.sort` (stable since ES2019) is modelled as a stable
  insertion sort in which an element `x` is placed before the first `y` it
  meets with `cmp x y ≤ 0`.
* Media positions and durations are rationals (exact stand-ins for the
  finite doubles involved).
-/

namespace ChronosHome

/-- The `Todo` interface of the Todos page. `due_date` is an optional
timestamp in milliseconds (`string | null` in the source, parsed by
`new Date(...).getTime()` before any comparison). -/
structure Todo where
  id : String
  title : String
  description : String
  due_date : Option Int
  completed : Bool
  priority : String
deriving Repr, DecidableEq

/-- First filter of `filteredAndSortedTodos`:
`if (filterStatus === 'active') return !todo.completed;
 if (filterStatus === 'completed') return todo.completed;
 return true;` -/
def statusKeep (filterStatus : String) (todo : Todo) : Bool :=
  if filterStatus == "active" then !todo.completed
  else if filterStatus == "completed" then todo.completed
  else true

/-- Second filter of `filteredAndSortedTodos`:
`if (filterPriority === 'all') return true;
 return todo.priority === filterPriority;` -/
def priorityKeep (filterPriority : String) (todo : Todo) : Bool :=
  if filterPriority == "all" then true
  else todo.priority == filterPriority

/-- The lookup `priorityOrder[p]` for the record mapping high to 0, medium to 1,
low to 2; an unknown key yields `undefined`, modelled as `none`. -/
def priorityOrder (p : String) : Option Nat :=
  if p == "high" then some 0
  else if p == "medium" then some 1
  else if p == "low" then some 2
  else none

/-- The comparator passed to `.sort` in `filteredAndSortedTodos`.
`none` models a `NaN` result (subtraction involving an `undefined` rank). -/
def todoCompare (sortBy : String) (a b : Todo) : Option Int :=
  if sortBy == "due_date" then
    match a.due_date, b.due_date with
    | none, _ => some 1
    | some _, none => some (-1)
    | some ta, some tb => some (ta - tb)
  else if sortBy == "priority" then
    match priorityOrder a.priority, priorityOrder b.priority with
    | some ra, some rb => some ((ra : Int) - (rb : Int))
    | _, _ => none
  else
    some 0

/-- Predicate `cmpLe cmp a b`: holds when the comparator says `a` need not come after
`b` (`cmp(a,b) <= 0` in JS; false when the comparator returns `NaN`). -/
def cmpLe (cmp : Todo → Todo → Option Int) (a b : Todo) : Bool :=
  match cmp a b with
  | some v => decide (v ≤ 0)
  | none => false

/-- Stable insertion of `x`: placed before the first element `y` with
`cmp x y ≤ 0`. -/
def insertByCmp (cmp : Todo → Todo → Option Int) (x : Todo) : List Todo → List Todo
  | [] => [x]
  | y :: ys => if cmpLe cmp x y then x :: y :: ys else y :: insertByCmp cmp x ys

/-- Stable sort by a JS-style comparator, the model of
`Array.prototype.sort(cmp)`. -/
def sortByCmp (cmp : Todo → Todo → Option Int) : List Todo → List Todo
  | [] => []
  | x :: xs => insertByCmp cmp x (sortByCmp cmp xs)

/-- The derived list `filteredAndSortedTodos`: status filter, then priority
filter, then sort by the selected key. -/
def filteredAndSortedTodos (todos : List Todo) (filterStatus filterPriority sortBy : String) : List Todo :=
  sortByCmp (todoCompare sortBy)
    ((todos.filter (statusKeep filterStatus)).filter (priorityKeep filterPriority))

/-- A browser notification as constructed by `new Notification` with a title
and a body. -/
structure AppNotification where
  title : String
  body : String
deriving Repr, DecidableEq

/-- Body of the `forEach` in `checkDueNotifications` for a single todo:
skip completed items and items without a due date, compute
`hoursUntilDue = (due - now) / (1000*60*60)` and emit one notification when
`hoursUntilDue <= 1 && hoursUntilDue > 0` and permission is granted. -/
def emitFor (now : Int) (permissionGranted : Bool) (todo : Todo) : Option AppNotification :=
  if !todo.completed then
    match todo.due_date with
    | some due =>
        let diff : Int := due - now
        let hoursUntilDue : ℚ := (diff : ℚ) / (1000 * 60 * 60)
        if hoursUntilDue ≤ 1 ∧ hoursUntilDue > 0 then
          if permissionGranted then
            some { title := "Task Due Soon!",
                   body := "\"" ++ todo.title ++ "\" is due in less than an hour" }
          else none
        else none
    | none => none
  else none

/-- Function `checkDueNotifications(todos)` run at time `now`: the notifications
emitted, in list order. -/
def checkDueNotifications (todos : List Todo) (now : Int) (permissionGranted : Bool) : List AppNotification :=
  todos.filterMap (emitFor now permissionGranted)

/-- Spec-side qualification: incomplete, dated, strictly between `now` and
one hour (3600000 ms) from `now`. -/
def dueSoon (now : Int) (todo : Todo) : Bool :=
  !todo.completed &&
    match todo.due_date with
    | some due => decide (0 < due - now) && decide (due - now ≤ 3600000)
    | none => false

/-- The notification built for a qualifying todo. -/
def dueNotificationFor (todo : Todo) : AppNotification :=
  { title := "Task Due Soon!",
    body := "\"" ++ todo.title ++ "\" is due in less than an hour" }

/-- The update payload written by `handleToggleComplete`: a `completed` flag
set to `!todo.completed` and a `completed_at` that is the current time when
the new flag is true and `null` otherwise. -/
structure TodoUpdatePayload where
  completed : Bool
  completed_at : Option Int
deriving Repr, DecidableEq

/-- Handler `handleToggleComplete`, current time `now`. -/
def toggleCompletePayload (todo : Todo) (now : Int) : TodoUpdatePayload :=
  { completed := !todo.completed,
    completed_at := if !todo.completed then some now else none }

/-- A toast message; the success toasts carry no `variant`, the error toasts
carry a destructive `variant`. -/
structure ToastMsg where
  title : String
  description : String
  variant : Option String
deriving Repr, DecidableEq

/-- Result of one handler run: the in-memory `todos` afterwards, the toast
shown (if any), and whether `fetchTodos()` was triggered. -/
structure StepResult where
  todos : List Todo
  toast : Option ToastMsg
  refetch : Bool
deriving Repr, DecidableEq

/-- Handler `fetchTodos`: on error a destructive toast and no state change; on
success `setTodos(data || [])`. The `Except` argument models the supabase
response (`error` vs `data`, the latter possibly `null`). -/
def fetchTodosStep (prior : List Todo) (res : Except Unit (Option (List Todo))) : List Todo × Option ToastMsg :=
  match res with
  | .error _ =>
      (prior, some { title := "Error", description := "Failed to fetch todos",
                     variant := some "destructive" })
  | .ok data => (data.getD [], none)

/-- Handler `handleToggleComplete` after the update call resolves: `err` is
the supabase `error` field. -/
def handleToggleCompleteStep (prior : List Todo) (err : Option Unit) : StepResult :=
  match err with
  | some _ =>
      { todos := prior,
        toast := some { title := "Error", description := "Failed to update todo",
                        variant := some "destructive" },
        refetch := false }
  | none => { todos := prior, toast := none, refetch := true }

/-- Handler `handleSubmit` after the insert/update resolves; `editing` is whether
`editingTodo` was set (update path) or not (insert path). -/
def handleSubmitStep (prior : List Todo) (editing : Bool) (err : Option Unit) : StepResult :=
  if editing then
    match err with
    | some _ =>
        { todos := prior,
          toast := some { title := "Error", description := "Failed to update todo",
                          variant := some "destructive" },
          refetch := false }
    | none =>
        { todos := prior,
          toast := some { title := "Success", description := "Todo updated successfully",
                          variant := none },
          refetch := true }
  else
    match err with
    | some _ =>
        { todos := prior,
          toast := some { title := "Error", description := "Failed to create todo",
                          variant := some "destructive" },
          refetch := false }
    | none =>
        { todos := prior,
          toast := some { title := "Success", description := "Todo created successfully",
                          variant := none },
          refetch := true }

/-- Handler `handleDelete` after the delete call resolves. -/
def handleDeleteStep (prior : List Todo) (err : Option Unit) : StepResult :=
  match err with
  | some _ =>
      { todos := prior,
        toast := some { title := "Error", description := "Failed to delete todo",
                        variant := some "destructive" },
        refetch := false }
  | none =>
      { todos := prior,
        toast := some { title := "Success", description := "Todo deleted successfully",
                        variant := none },
        refetch := true }

/-- Media player `skipForward`: `currentTime = Math.min(currentTime + 10, duration)`. -/
def skipForward (currentTime duration : ℚ) : ℚ :=
  min (currentTime + 10) duration

/-- Media player `skipBackward`: `currentTime = Math.max(currentTime - 10, 0)`. -/
def skipBackward (currentTime : ℚ) : ℚ :=
  max (currentTime - 10) 0

/-- Ordering constraint the due-date sort must satisfy between an earlier
element `a` and a later element `b`: a dated item never follows an undated
one, and due timestamps are non-decreasing among dated items. -/
def dueBeforeOk (a b : Todo) : Prop :=
  (a.due_date = none → b.due_date = none) ∧
  (∀ ta tb, a.due_date = some ta → b.due_date = some tb → ta ≤ tb)

/-- Ordering constraint the priority sort must satisfy between an earlier
element `a` and a later element `b`: whenever both ranks are defined, `a`'s
rank is at most `b`'s. -/
def prioOk (a b : Todo) : Prop :=
  ∀ ra rb, priorityOrder a.priority = some ra → priorityOrder b.priority = some rb → ra ≤ rb

/-- Scenario item A: no due date, low priority, not completed. -/
def todoA : Todo :=
  { id := "a", title := "A", description := "", due_date := none,
    completed := false, priority := "low" }

/-- Scenario item B: due 2099-01-01T00:00Z (4070908800000 ms), high
priority, not completed. -/
def todoB : Todo :=
  { id := "b", title := "B", description := "", due_date := some 4070908800000,
    completed := false, priority := "high" }

/-- Scenario item due exactly two hours (7200000 ms) after `now`. -/
def twoHourTodo (now : Int) : Todo :=
  { id := "t", title := "T", description := "", due_date := some (now + 7200000),
    completed := false, priority := "medium" }

/-- Sample list used by concrete witnesses. -/
def sampleTodos : List Todo :=
  [ { id := "1", title := "one", description := "", due_date := some 50,
      completed := false, priority := "high" },
    { id := "2", title := "two", description := "", due_date := none,
      completed := true, priority := "low" },
    { id := "3", title := "three", description := "", due_date := some 20,
      completed := false, priority := "medium" },
    { id := "4", title := "four", description := "", due_date := some 20,
      completed := true, priority := "high" } ]

end ChronosHome

namespace ChronosHome

theorem insertByCmp_perm (cmp : Todo → Todo → Option Int) (x : Todo) (l : List Todo) :
    (insertByCmp cmp x l).Perm (x :: l) := by
  induction l with
  | nil => exact List.Perm.refl _
  | cons y ys ih =>
    rw [insertByCmp]
    by_cases h : cmpLe cmp x y = true
    · rw [if_pos h]
    · rw [if_neg h]
      exact (ih.cons y).trans (List.Perm.swap x y ys)

theorem mem_insertByCmp {cmp : Todo → Todo → Option Int} {x a : Todo} {l : List Todo} :
    a ∈ insertByCmp cmp x l ↔ a = x ∨ a ∈ l :=
  (insertByCmp_perm cmp x l).mem_iff.trans (by simp)

theorem sortByCmp_perm (cmp : Todo → Todo → Option Int) (l : List Todo) :
    (sortByCmp cmp l).Perm l := by
  induction l with
  | nil => exact List.Perm.refl _
  | cons x xs ih =>
    rw [sortByCmp]
    exact (insertByCmp_perm cmp x _).trans (ih.cons x)

theorem cmpLe_due_none_left {a : Todo} (b : Todo) (ha : a.due_date = none) :
    cmpLe (todoCompare ("due_date")) a b = false := by
  simp [cmpLe, todoCompare, ha]

theorem cmpLe_due_some_none {a b : Todo} {ta : Int} (ha : a.due_date = some ta)
    (hb : b.due_date = none) : cmpLe (todoCompare ("due_date")) a b = true := by
  simp [cmpLe, todoCompare, ha, hb]

theorem cmpLe_due_some_some {a b : Todo} {ta tb : Int} (ha : a.due_date = some ta)
    (hb : b.due_date = some tb) :
    cmpLe (todoCompare ("due_date")) a b = decide (ta ≤ tb) := by
  simp only [cmpLe, todoCompare, ha, hb]
  simp [decide_eq_decide]

theorem pairwise_due_insert (x : Todo) (l : List Todo) (h : l.Pairwise dueBeforeOk) :
    (insertByCmp (todoCompare ("due_date")) x l).Pairwise dueBeforeOk := by
  induction l with
  | nil => simp [insertByCmp]
  | cons y ys ih =>
    rw [List.pairwise_cons] at h
    obtain ⟨hy, hys⟩ := h
    rw [insertByCmp]
    by_cases hc : cmpLe (todoCompare ("due_date")) x y = true
    · rw [if_pos hc]
      rcases hx : x.due_date with _ | tx
      · rw [cmpLe_due_none_left y hx] at hc; cases hc
      refine List.pairwise_cons.mpr ⟨?_, List.pairwise_cons.mpr ⟨hy, hys⟩⟩
      intro z hz
      rcases List.mem_cons.mp hz with rfl | hz'
      · constructor
        · intro hxn; rw [hx] at hxn; cases hxn
        · intro ta tb hta htb
          rw [hx] at hta
          injection hta with hta; subst hta
          rcases hzb : z.due_date with _ | tz
          · rw [hzb] at htb; cases htb
          · rw [hzb] at htb; injection htb with htb; subst htb
            rw [cmpLe_due_some_some hx hzb] at hc
            exact of_decide_eq_true hc
      · constructor
        · intro hxn; rw [hx] at hxn; cases hxn
        · intro ta tb hta htb
          rw [hx] at hta
          injection hta with hta; subst hta
          rcases hyd : y.due_date with _ | ty
          · have := (hy z hz').1 hyd
            rw [this] at htb; cases htb
          · have h1 : tx ≤ ty := by
              rw [cmpLe_due_some_some hx hyd] at hc
              exact of_decide_eq_true hc
            exact le_trans h1 ((hy z hz').2 ty tb hyd htb)
    · rw [if_neg hc]
      refine List.pairwise_cons.mpr ⟨?_, ih hys⟩
      intro z hz
      rcases mem_insertByCmp.mp hz with rfl | hz'
      · rcases hx : z.due_date with _ | tz
        · exact ⟨fun _ => hx, fun ta tb _ htb => by rw [hx] at htb; cases htb⟩
        · rcases hyd : y.due_date with _ | ty
          · rw [cmpLe_due_some_none hx hyd] at hc; cases hc rfl
          · constructor
            · intro hyn; rw [hyd] at hyn; cases hyn
            · intro ta tb hta htb
              rw [hyd] at hta; injection hta with hta; subst hta
              rw [hx] at htb; injection htb with htb; subst htb
              rw [cmpLe_due_some_some hx hyd] at hc
              have hlt : ¬ (tz ≤ ty) := fun hle => hc (decide_eq_true hle)
              omega
      · exact hy z hz'

theorem sortByCmp_due_pairwise (l : List Todo) :
    (sortByCmp (todoCompare ("due_date")) l).Pairwise dueBeforeOk := by
  induction l with
  | nil => simp [sortByCmp]
  | cons x xs ih =>
    rw [sortByCmp]
    exact pairwise_due_insert x _ ih

end ChronosHome

namespace ChronosHome

theorem cmpLe_prio_some_some {a b : Todo} {ra rb : Nat}
    (ha : priorityOrder a.priority = some ra) (hb : priorityOrder b.priority = some rb) :
    cmpLe (todoCompare ("priority")) a b = decide (ra ≤ rb) := by
  simp only [cmpLe, todoCompare, ha, hb]
  simp [decide_eq_decide]

theorem cmpLe_prio_none {a b : Todo}
    (h : priorityOrder a.priority = none ∨ priorityOrder b.priority = none) :
    cmpLe (todoCompare ("priority")) a b = false := by
  rcases h with h | h
  · rcases hb : priorityOrder b.priority with _ | rb <;> simp [cmpLe, todoCompare, h, hb]
  · rcases ha : priorityOrder a.priority with _ | ra <;> simp [cmpLe, todoCompare, h, ha]

theorem pairwise_prio_insert (x : Todo) (l : List Todo) (h : l.Pairwise prioOk) :
    (insertByCmp (todoCompare ("priority")) x l).Pairwise prioOk := by
  induction l with
  | nil => simp [insertByCmp]
  | cons y ys ih =>
    rw [List.pairwise_cons] at h
    obtain ⟨hy, hys⟩ := h
    rw [insertByCmp]
    by_cases hc : cmpLe (todoCompare ("priority")) x y = true
    · rw [if_pos hc]
      rcases hx : priorityOrder x.priority with _ | rx
      · rw [cmpLe_prio_none (Or.inl hx)] at hc; cases hc
      rcases hyr : priorityOrder y.priority with _ | ry
      · rw [cmpLe_prio_none (Or.inr hyr)] at hc; cases hc
      have hxy : rx ≤ ry := by
        rw [cmpLe_prio_some_some hx hyr] at hc
        exact of_decide_eq_true hc
      refine List.pairwise_cons.mpr ⟨?_, List.pairwise_cons.mpr ⟨hy, hys⟩⟩
      intro z hz
      rcases List.mem_cons.mp hz with rfl | hz'
      · intro ra rb hra hrb
        rw [hx] at hra; injection hra with hra; subst hra
        rw [hyr] at hrb; injection hrb with hrb; subst hrb
        exact hxy
      · intro ra rb hra hrb
        rw [hx] at hra; injection hra with hra; subst hra
        exact le_trans hxy (hy z hz' ry rb hyr hrb)
    · rw [if_neg hc]
      refine List.pairwise_cons.mpr ⟨?_, ih hys⟩
      intro z hz
      rcases mem_insertByCmp.mp hz with rfl | hz'
      · intro ra rb hra hrb
        rw [cmpLe_prio_some_some hrb hra] at hc
        have hlt : ¬ (rb ≤ ra) := fun hle => hc (decide_eq_true hle)
        omega
      · exact hy z hz'

theorem sortByCmp_prio_pairwise (l : List Todo) :
    (sortByCmp (todoCompare ("priority")) l).Pairwise prioOk := by
  induction l with
  | nil => simp [sortByCmp]
  | cons x xs ih =>
    rw [sortByCmp]
    exact pairwise_prio_insert x _ ih

theorem filter_insert_prio (p : String) (x : Todo) (l : List Todo)
    (hx : (priorityOrder x.priority).isSome = true) :
    (insertByCmp (todoCompare ("priority")) x l).filter (fun t => t.priority == p) =
      if x.priority == p then x :: l.filter (fun t => t.priority == p)
      else l.filter (fun t => t.priority == p) := by
  induction l with
  | nil => simp only [insertByCmp, List.filter_cons, List.filter_nil]
  | cons y ys ih =>
    rw [insertByCmp]
    by_cases hc : cmpLe (todoCompare ("priority")) x y = true
    · rw [if_pos hc, List.filter_cons]
    · rw [if_neg hc, List.filter_cons]
      by_cases hqy : (y.priority == p) = true
      · by_cases hqx : (x.priority == p) = true
        · exfalso
          have hsame : y.priority = x.priority :=
            (eq_of_beq hqy).trans (eq_of_beq hqx).symm
          rcases hr : priorityOrder x.priority with _ | rx
          · rw [hr] at hx; cases hx
          · apply hc
            rw [cmpLe_prio_some_some hr (by rw [hsame]; exact hr)]
            simp
        · rw [if_pos hqy, ih, if_neg hqx, if_neg hqx, List.filter_cons, if_pos hqy]
      · rw [if_neg hqy, ih, List.filter_cons, if_neg hqy]

theorem sortByCmp_prio_stable (l : List Todo)
    (hl : ∀ t ∈ l, (priorityOrder t.priority).isSome = true) (p : String) :
    (sortByCmp (todoCompare ("priority")) l).filter (fun t => t.priority == p) =
      l.filter (fun t => t.priority == p) := by
  induction l with
  | nil => rfl
  | cons x xs ih =>
    rw [sortByCmp, filter_insert_prio p x _ (hl x (List.mem_cons_self x xs)),
      ih (fun t ht => hl t (List.mem_cons_of_mem x ht)), List.filter_cons]

theorem insertByCmp_created (x : Todo) (l : List Todo) :
    insertByCmp (todoCompare ("created")) x l = x :: l := by
  cases l with
  | nil => rfl
  | cons y ys =>
    rw [insertByCmp, if_pos]
    simp [cmpLe, todoCompare]

theorem sortByCmp_created (l : List Todo) :
    sortByCmp (todoCompare ("created")) l = l := by
  induction l with
  | nil => rfl
  | cons x xs ih => rw [sortByCmp, ih, insertByCmp_created]

theorem emitFor_true (now : Int) (t : Todo) :
    emitFor now true t = if dueSoon now t then some (dueNotificationFor t) else none := by
  rcases hc : t.completed <;> rcases hd : t.due_date with _ | due <;>
    simp [emitFor, dueSoon, dueNotificationFor, hc, hd]
  have hiff : ((due : ℚ) - (now : ℚ)) / (1000 * 60 * 60) ≤ 1 ↔ due ≤ 3600000 + now := by
    rw [div_le_one (by norm_num), sub_le_iff_le_add]
    norm_num
    constructor
    · intro h
      exact_mod_cast h
    · intro h
      exact_mod_cast h
  simp [hiff, and_comm]

theorem emitFor_false (now : Int) (t : Todo) : emitFor now false t = none := by
  unfold emitFor
  rcases t.completed <;> rcases t.due_date <;> simp

theorem checkDue_eq_filter (todos : List Todo) (now : Int) :
    checkDueNotifications todos now true =
      (todos.filter (dueSoon now)).map dueNotificationFor := by
  induction todos with
  | nil => rfl
  | cons t ts ih =>
    rw [checkDueNotifications] at ih ⊢
    rw [List.filterMap_cons, emitFor_true, List.filter_cons]
    by_cases h : dueSoon now t = true
    · rw [if_pos h, if_pos h, List.map_cons, ih]
    · rw [if_neg h, if_neg h, ih]

end ChronosHome

namespace ChronosHome

/-- C1: the status filter with `active` keeps exactly the items with
`completed = false`, with `completed` exactly those with `completed = true`,
and with `all` it is the identity. -/
theorem c1_status_filter (todos : List Todo) :
    (∀ x : Todo, x ∈ todos.filter (statusKeep ("active")) ↔ x ∈ todos ∧ x.completed = false) ∧
    (∀ x : Todo, x ∈ todos.filter (statusKeep ("completed")) ↔ x ∈ todos ∧ x.completed = true) ∧
    todos.filter (statusKeep ("all")) = todos := by
  refine ⟨?_, ?_, ?_⟩
  · intro x
    simp [List.mem_filter, statusKeep]
  · intro x
    simp [List.mem_filter, statusKeep]
  · apply List.filter_eq_self.mpr
    intro a _
    rfl

/-- C2: a priority filter other than `all` keeps exactly the items whose
priority equals the filter value, and the status and priority filters
compose by intersection, independent of application order. -/
theorem c2_priority_filter_composition (todos : List Todo) (v s p : String)
    (hv : v ≠ "all") :
    (∀ x : Todo, x ∈ todos.filter (priorityKeep v) ↔ x ∈ todos ∧ x.priority = v) ∧
    ((todos.filter (statusKeep s)).filter (priorityKeep p) =
      (todos.filter (priorityKeep p)).filter (statusKeep s)) ∧
    (∀ x : Todo, x ∈ (todos.filter (statusKeep s)).filter (priorityKeep p) ↔
      x ∈ todos.filter (statusKeep s) ∧ x ∈ todos.filter (priorityKeep p)) := by
  refine ⟨?_, ?_, ?_⟩
  · intro x
    have hb : (v == "all") = false := beq_eq_false_iff_ne.mpr hv
    simp [List.mem_filter, priorityKeep, hb]
  · rw [List.filter_filter, List.filter_filter]
    congr 1
    funext a
    rw [Bool.and_comm]
  · intro x
    simp [List.mem_filter]
    tauto

/-- C2 witness: instantiation at the sample list with the `high` priority
filter. -/
theorem c2_priority_filter_composition_witness :
    (("high" : String) ≠ "all") ∧
      (∀ x : Todo, x ∈ sampleTodos.filter (priorityKeep ("high")) ↔
        x ∈ sampleTodos ∧ x.priority = "high") :=
  ⟨by decide,
    (c2_priority_filter_composition sampleTodos ("high") ("active") ("low") (by decide)).1⟩

/-- C3: sorting by `due_date` places every dated item before every undated
one with due timestamps non-decreasing among dated items, and the scenario
input [A undated, B dated 2099-01-01] comes out as [B, A]. -/
theorem c3_due_date_sort (l : List Todo) :
    (sortByCmp (todoCompare ("due_date")) l).Pairwise dueBeforeOk ∧
    sortByCmp (todoCompare ("due_date")) [todoA, todoB] = [todoB, todoA] :=
  ⟨sortByCmp_due_pairwise l, by decide⟩

/-- C4: when every priority is high, medium or low, sorting by `priority`
produces non-decreasing ranks (high = 0, medium = 1, low = 2) and equal
priorities keep their relative input order. -/
theorem c4_priority_sort (l : List Todo)
    (hval : ∀ t ∈ l, t.priority = "high" ∨ t.priority = "medium" ∨ t.priority = "low") :
    priorityOrder ("high") = some 0 ∧ priorityOrder ("medium") = some 1 ∧
    priorityOrder ("low") = some 2 ∧
    (sortByCmp (todoCompare ("priority")) l).Pairwise prioOk ∧
    (∀ p : String,
      (sortByCmp (todoCompare ("priority")) l).filter (fun t => t.priority == p) =
        l.filter (fun t => t.priority == p)) := by
  refine ⟨rfl, rfl, rfl, sortByCmp_prio_pairwise l, ?_⟩
  intro p
  apply sortByCmp_prio_stable
  intro t ht
  rcases hval t ht with h | h | h <;> simp [priorityOrder, h]

/-- C4 witness: the hypothesis and the rank-order conclusion hold on the
sample list. -/
theorem c4_priority_sort_witness :
    (∀ t ∈ sampleTodos, t.priority = "high" ∨ t.priority = "medium" ∨ t.priority = "low") ∧
      (sortByCmp (todoCompare ("priority")) sampleTodos).Pairwise prioOk :=
  ⟨by decide, (c4_priority_sort sampleTodos (by decide)).2.2.2.1⟩

/-- C5: with permission granted the due check emits exactly one notification
(the item's title inside the fixed due-soon message) per incomplete item due
strictly within one hour of `now`; nothing is emitted without permission,
and an item due two hours out emits nothing. -/
theorem c5_due_notifications (todos : List Todo) (now : Int) :
    checkDueNotifications todos now true =
      (todos.filter (dueSoon now)).map dueNotificationFor ∧
    checkDueNotifications todos now false = [] ∧
    checkDueNotifications [twoHourTodo now] now true = [] := by
  refine ⟨checkDue_eq_filter todos now, ?_, ?_⟩
  · unfold checkDueNotifications
    induction todos with
    | nil => rfl
    | cons t ts ih => rw [List.filterMap_cons, emitFor_false, ih]
  · rw [checkDue_eq_filter]
    have h2 : dueSoon now (twoHourTodo now) = false := by
      simp [dueSoon, twoHourTodo]
    simp [h2]

/-- C6: the completion toggle writes the negated flag with `completed_at`
non-null exactly when the new flag is true; an incomplete item gains the
current timestamp, and toggling the (refetched) completed item clears both
again. -/
theorem c6_toggle_complete (todo : Todo) (now now2 : Int)
    (h : todo.completed = false) :
    (toggleCompletePayload todo now).completed = true ∧
    (toggleCompletePayload todo now).completed_at = some now ∧
    (toggleCompletePayload
      { todo with completed := (toggleCompletePayload todo now).completed } now2).completed = false ∧
    (toggleCompletePayload
      { todo with completed := (toggleCompletePayload todo now).completed } now2).completed_at = none ∧
    (∀ (t : Todo) (n : Int),
      ((toggleCompletePayload t n).completed_at.isSome = true ↔
        (toggleCompletePayload t n).completed = true)) := by
  refine ⟨by simp [toggleCompletePayload, h], by simp [toggleCompletePayload, h],
    by simp [toggleCompletePayload, h], by simp [toggleCompletePayload, h], ?_⟩
  intro t n
  cases ht : t.completed <;> simp [toggleCompletePayload, ht]

/-- C6 witness: toggling the incomplete scenario item A at times 1000 and
2000. -/
theorem c6_toggle_complete_witness :
    (todoA.completed = false) ∧ (toggleCompletePayload todoA 1000).completed = true :=
  ⟨rfl, (c6_toggle_complete todoA 1000 2000 rfl).1⟩

/-- C7: with both filters at `all` the pipeline output is a permutation of
the input for every sort key, and with sort key `created` it is the input
list itself, in input order. -/
theorem c7_all_filters_identity (todos : List Todo) (sortBy : String) :
    (filteredAndSortedTodos todos ("all") ("all") sortBy).Perm todos ∧
    filteredAndSortedTodos todos ("all") ("all") ("created") = todos := by
  have hfilter : (todos.filter (statusKeep ("all"))).filter (priorityKeep ("all")) = todos := by
    have h1 : todos.filter (statusKeep ("all")) = todos :=
      List.filter_eq_self.mpr fun a _ => rfl
    have h2 : todos.filter (priorityKeep ("all")) = todos :=
      List.filter_eq_self.mpr fun a _ => rfl
    rw [h1]
    exact h2
  constructor
  · unfold filteredAndSortedTodos
    rw [hfilter]
    exact sortByCmp_perm _ todos
  · unfold filteredAndSortedTodos
    rw [hfilter, sortByCmp_created]

/-- C8: every failed fetch, toggle, edit, create or delete leaves the
in-memory todos exactly as before, triggers no refetch, and surfaces only a
destructive toast naming the attempted action. -/
theorem c8_error_paths (prior : List Todo) :
    fetchTodosStep prior (Except.error ()) =
      (prior, some { title := "Error", description := "Failed to fetch todos",
                     variant := some "destructive" }) ∧
    handleToggleCompleteStep prior (some ()) =
      { todos := prior,
        toast := some { title := "Error", description := "Failed to update todo",
                        variant := some "destructive" },
        refetch := false } ∧
    handleSubmitStep prior true (some ()) =
      { todos := prior,
        toast := some { title := "Error", description := "Failed to update todo",
                        variant := some "destructive" },
        refetch := false } ∧
    handleSubmitStep prior false (some ()) =
      { todos := prior,
        toast := some { title := "Error", description := "Failed to create todo",
                        variant := some "destructive" },
        refetch := false } ∧
    handleDeleteStep prior (some ()) =
      { todos := prior,
        toast := some { title := "Error", description := "Failed to delete todo",
                        variant := some "destructive" },
        refetch := false } :=
  ⟨rfl, rfl, rfl, rfl, rfl⟩

/-- C9: skip forward sets the position to min(current + 10, duration) and
skip backward to max(current - 10, 0); from any position in [0, duration]
both results stay in [0, duration]. -/
theorem c9_skip_clamp (c d : ℚ) (h0 : 0 ≤ c) (hd : c ≤ d) :
    skipForward c d = min (c + 10) d ∧
    skipBackward c = max (c - 10) 0 ∧
    0 ≤ skipForward c d ∧ skipForward c d ≤ d ∧
    0 ≤ skipBackward c ∧ skipBackward c ≤ d :=
  ⟨rfl, rfl, le_min (by linarith) (by linarith), min_le_right _ _,
    le_max_right _ _, max_le (by linarith) (by linarith)⟩

/-- C9 witness: position 5 of a 30-second file. -/
theorem c9_skip_clamp_witness :
    ((0 : ℚ) ≤ 5 ∧ (5 : ℚ) ≤ 30) ∧ (0 : ℚ) ≤ skipForward 5 30 :=
  ⟨by norm_num, (c9_skip_clamp 5 30 (by norm_num) (by norm_num)).2.2.1⟩

/-- C10: for every filter and sort setting the pipeline output is a
sub-permutation of the input: every output item is an unmodified input item
and occurs no more often than in the input. -/
theorem c10_pipeline_subperm (todos : List Todo) (s p k : String) :
    List.Subperm (filteredAndSortedTodos todos s p k) todos ∧
    (∀ x ∈ filteredAndSortedTodos todos s p k, x ∈ todos) ∧
    (∀ t : Todo, (filteredAndSortedTodos todos s p k).count t ≤ todos.count t) := by
  have hsub : List.Subperm (filteredAndSortedTodos todos s p k) todos := by
    refine ⟨(todos.filter (statusKeep s)).filter (priorityKeep p), ?_, ?_⟩
    · exact (sortByCmp_perm _ _).symm
    · exact (List.filter_sublist _).trans (List.filter_sublist _)
  exact ⟨hsub, fun x hx => hsub.subset hx, fun t => hsub.count_le t⟩

end ChronosHome
